import Mathlib

/-!
Verification of the btop-quiet metrics server core.

Shallow embedding of the metrics sampling subsystem of the server
(`getCpuUsage`, `getProcesses`, `formatBytes`, `getMemoryInfo`,
`getSystemMetrics`).  JavaScript numbers on the paths exercised here are
exact integers (cumulative counters, byte counts), so they are modelled by
`ℕ`/`ℤ`, with `ℚ` for the division results fed to `Math.round`; claims about
quantities the source divides by carry the corresponding positivity
hypothesis, matching the nonzero denominators of the source.  A JavaScript
`NaN` produced by `parseInt`/`parseFloat` on a non-numeric token is modelled
by `Option.none`.  External command results are inputs of the embedded
functions: a failed command (the `catch` path of the source) is
`Option.none`, a successful one `some` of its stdout.  JavaScript string
methods (`trim`, `split`, `substring`, `includes`, `startsWith`, regular
expression matching on `\d+` groups) are re-implemented structurally on
`List Char` so that every definition evaluates by kernel reduction.
-/

namespace Btop

/-- JavaScript `Math.round`: round half toward positive infinity,
`Math.round x = ⌊x + 1/2⌋` (stated via the executable `Rat.floor`). -/
def jsRound (q : ℚ) : ℤ := (q + 1/2).floor

/-! ## JavaScript string primitives -/

/-- Characters of a string with leading and trailing whitespace removed:
JavaScript `String.prototype.trim`. -/
def trimChars (cs : List Char) : List Char :=
  ((cs.dropWhile Char.isWhitespace).reverse.dropWhile Char.isWhitespace).reverse

/-- JavaScript `s.trim()`. -/
def jsTrim (s : String) : String := String.mk (trimChars s.data)

/-- Split a character list at every occurrence of `sep`, JavaScript
`String.prototype.split` with a single-character separator: the empty input
yields one empty piece, separators at the ends yield empty pieces. -/
def splitCharsOn (sep : Char) : List Char → List (List Char)
  | [] => [[]]
  | c :: cs =>
    match splitCharsOn sep cs with
    | [] => [[c]]
    | t :: ts => if c = sep then [] :: t :: ts else (c :: t) :: ts

/-- JavaScript `s.split("\n")`. -/
def jsSplitLines (s : String) : List String :=
  (splitCharsOn (Char.ofNat 10) s.data).map String.mk

/-- Maximal runs of non-whitespace characters, accumulator form. -/
def wordRunsAux : List Char → List Char → List (List Char)
  | [], acc => if acc.isEmpty then [] else [acc.reverse]
  | c :: cs, acc =>
    if c.isWhitespace then
      if acc.isEmpty then wordRunsAux cs [] else acc.reverse :: wordRunsAux cs []
    else wordRunsAux cs (c :: acc)

/-- JavaScript `s.trim().split(/\s+/)` as used on each process line: the
whitespace-separated tokens of `s`; on an all-whitespace `s` JavaScript
yields `[""]` (splitting the empty string). -/
def jsSplitWs (s : String) : List String :=
  let t := trimChars s.data
  if t.isEmpty then [""] else (wordRunsAux t []).map String.mk

/-- JavaScript `s.startsWith(pat)`. -/
def jsStartsWith (s pat : String) : Bool := pat.data.isPrefixOf s.data

/-- Containment of `pat` as a contiguous substring, JavaScript
`s.includes(pat)`. -/
def containsAux (pat : List Char) : List Char → Bool
  | [] => pat.isEmpty
  | c :: cs => pat.isPrefixOf (c :: cs) || containsAux pat cs

/-- JavaScript `s.includes(pat)`. -/
def jsIncludes (s pat : String) : Bool := containsAux pat.data s.data

/-- Decimal value of a digit run (most significant digit first). -/
def digitsVal (ds : List Char) : ℕ := ds.foldl (fun a c => a * 10 + (c.toNat - 48)) 0

/-- The leftmost maximal digit run of a character list: what the group of
the regular expression `/(\d+)/` matches, `none` when the string holds no
digit. -/
def firstDigitsRun : List Char → Option (List Char)
  | [] => none
  | c :: cs => if c.isDigit then some (c :: cs.takeWhile Char.isDigit) else firstDigitsRun cs

/-- Value of the first digit run of a line: `line.match(/(\d+)/)?.[1]`. -/
def firstNatIn (line : String) : Option ℕ := (firstDigitsRun line.data).map digitsVal

/-- Leading digit run as a number, `none` when there is none. -/
def digitsOf (cs : List Char) : Option ℕ :=
  let ds := cs.takeWhile Char.isDigit
  if ds.isEmpty then none else some (digitsVal ds)

/-- JavaScript `parseInt(s, 10)`: skip leading whitespace, optional sign,
longest digit prefix; `none` models the `NaN` result on a non-numeric
string. -/
def jsParseInt (s : String) : Option ℤ :=
  match s.data.dropWhile Char.isWhitespace with
  | '-' :: cs => (digitsOf cs).map (fun n => -(n : ℤ))
  | '+' :: cs => (digitsOf cs).map (fun n => (n : ℤ))
  | cs => (digitsOf cs).map (fun n => (n : ℤ))

/-- Unsigned part of `parseFloat`: integer digits with an optional fraction
(exponent forms never occur in `ps` output and are not modelled). -/
def jsParseFloatCore (cs : List Char) : Option ℚ :=
  let ip := cs.takeWhile Char.isDigit
  let rest := cs.dropWhile Char.isDigit
  match rest with
  | '.' :: rest2 =>
    let fp := rest2.takeWhile Char.isDigit
    if ip.isEmpty && fp.isEmpty then none
    else some (mkRat (digitsVal ip * 10 ^ fp.length + digitsVal fp) (10 ^ fp.length))
  | _ => if ip.isEmpty then none else some (mkRat (digitsVal ip) 1)

/-- JavaScript `parseFloat(s)`; `none` models `NaN`. -/
def jsParseFloat (s : String) : Option ℚ :=
  match s.data.dropWhile Char.isWhitespace with
  | '-' :: cs => (jsParseFloatCore cs).map (fun q => -q)
  | '+' :: cs => jsParseFloatCore cs
  | cs => jsParseFloatCore cs

/-- JavaScript `s.substring(0, n)` (the command strings involved are ASCII,
so code units and characters coincide). -/
def jsSubstring (s : String) (n : ℕ) : String := String.mk (s.data.take n)

/-! ## CpuTimeSampler (`getCpuUsage`, `prevCpuTimes`) -/

/-- One core's cumulative time counters (`cpu.times` from `os.cpus()`):
non-negative integers. -/
structure CpuTimes where
  user : ℕ
  nice : ℕ
  sys : ℕ
  idle : ℕ
  irq : ℕ
deriving DecidableEq, Repr

/-- Sum of the five counters: `cpu.times.user + cpu.times.nice +
cpu.times.sys + cpu.times.idle + cpu.times.irq`. -/
def CpuTimes.total (t : CpuTimes) : ℕ := t.user + t.nice + t.sys + t.idle + t.irq

/-- One element of `os.cpus()`: the model string and the `times` record. -/
structure CpuInfo where
  model : String
  times : CpuTimes
deriving DecidableEq, Repr

/-- The emitted per-core usage record (interface `CpuUsage`). -/
structure CpuUsage where
  core : ℕ
  usage : ℤ
  user : ℤ
  system : ℤ
  idle : ℤ
deriving DecidableEq, Repr

/-- The `prevCpuTimes` module-level array: a map from core index to the
cached previous reading (`none` where no entry exists yet). -/
def Cache : Type := ℕ → Option CpuTimes

/-- Body of the `cpuInfo.forEach` callback in `getCpuUsage`, for one core at
`index` with cached previous reading `prev?`. -/
def computeCoreUsage (index : ℕ) (cpu : CpuTimes) (prev? : Option CpuTimes) :
    CpuUsage :=
  match prev? with
  | some prev =>
    let totalDiff : ℤ := (cpu.total : ℤ) - (prev.total : ℤ)
    let idleDiff : ℤ := (cpu.idle : ℤ) - (prev.idle : ℤ)
    let userDiff : ℤ := (cpu.user : ℤ) - (prev.user : ℤ)
    let sysDiff : ℤ := (cpu.sys : ℤ) - (prev.sys : ℤ)
    if 0 < totalDiff then
      { core := index
        usage := jsRound (((totalDiff - idleDiff : ℤ) : ℚ) / (totalDiff : ℚ) * 100)
        user := jsRound ((userDiff : ℚ) / (totalDiff : ℚ) * 100)
        system := jsRound ((sysDiff : ℚ) / (totalDiff : ℚ) * 100)
        idle := jsRound ((idleDiff : ℚ) / (totalDiff : ℚ) * 100) }
    else
      { core := index, usage := 0, user := 0, system := 0, idle := 100 }
  | none =>
    { core := index
      usage := jsRound (((cpu.total : ℚ) - (cpu.idle : ℚ)) / (cpu.total : ℚ) * 100)
      user := jsRound ((cpu.user : ℚ) / (cpu.total : ℚ) * 100)
      system := jsRound ((cpu.sys : ℚ) / (cpu.total : ℚ) * 100)
      idle := jsRound ((cpu.idle : ℚ) / (cpu.total : ℚ) * 100) }

/-- The `forEach` loop of `getCpuUsage`: walks the core list from index
`start`, emitting one `CpuUsage` per core and overwriting the cache entry
(`prevCpuTimes[index] = { ...cpu.times }`) as it goes. -/
def getCpuUsageAux : List CpuInfo → ℕ → Cache → List CpuUsage × Cache
  | [], _, cache => ([], cache)
  | cpu :: rest, start, cache =>
    let u := computeCoreUsage start cpu.times (cache start)
    let cache' : Cache := fun j => if j = start then some cpu.times else cache j
    let r := getCpuUsageAux rest (start + 1) cache'
    (u :: r.1, r.2)

/-- The function `getCpuUsage()`: input the current `os.cpus()` snapshot and
the current `prevCpuTimes` cache; output the emitted usage list and the
updated cache. -/
def getCpuUsage (cpuInfo : List CpuInfo) (cache : Cache) :
    List CpuUsage × Cache :=
  getCpuUsageAux cpuInfo 0 cache

/-! ## ProcessSnapshot (`getProcesses`, `formatBytes`) -/

/-- One parsed process row (interface `ProcessInfo`); `pid`, `cpu`, `mem`
are `Option`s because `parseInt`/`parseFloat` return `NaN` on non-numeric
tokens. -/
structure ProcessInfo where
  pid : Option ℤ
  user : String
  cpu : Option ℚ
  mem : Option ℚ
  vsz : String
  rss : String
  tty : String
  stat : String
  start : String
  time : String
  command : String
deriving DecidableEq, Repr

/-- The exponent `Math.floor(Math.log bytes / Math.log 1024)` for a positive
integer `bytes`: the number of times 1024 divides into `bytes` before the
quotient drops below 1024.  The first argument is fuel bounding the
recursion depth. -/
def log1024Aux : ℕ → ℕ → ℕ
  | 0, _ => 0
  | fuel + 1, b => if b < 1024 then 0 else log1024Aux fuel (b / 1024) + 1

/-- Exponent selecting the unit in `formatBytes`. -/
def log1024 (b : ℕ) : ℕ := log1024Aux b b

/-- JavaScript `Math.round(b / k * 10)` for an integer `b` and positive
integer `k`, the numerator of `(b / k).toFixed(1)`, computed by integer
floor division; `roundTenths_eq` below proves it equal to the rational
rounding of the source. -/
def roundTenths (b : ℤ) (k : ℕ) : ℤ := (20 * b + (k : ℤ)) / (2 * (k : ℤ))

/-- The function `formatBytes(bytes)`.  For `bytes > 0` the unit index is
`Math.floor(Math.log bytes / Math.log 1024)` and the displayed number is
`parseFloat((bytes / 1024 ** i).toFixed(1))`, which prints without the
trailing `.0` exactly when the rounded tenths are a whole number.  For
negative input `Math.log` returns `NaN`, `sizes[NaN]` is `undefined`, and
the concatenation is the string `"NaNundefined"`. -/
def formatBytes (bytes : ℤ) : String :=
  if bytes = 0 then "0 B"
  else if bytes < 0 then "NaNundefined"
  else
    let i := log1024 bytes.toNat
    let k := 1024 ^ i
    let m := roundTenths bytes k
    let numStr :=
      if m % 10 = 0 then toString (m / 10)
      else toString (m / 10) ++ "." ++ toString (m % 10)
    numStr ++ (["B", "K", "M", "G", "T"].getD i "undefined")

/-- Result of `formatBytes` applied to a `parseInt` result: on `NaN` every
arithmetic step of the source propagates `NaN` and the final concatenation
is `"NaN" + undefined`. -/
def formatBytesNum : Option ℤ → String
  | none => "NaNundefined"
  | some b => formatBytes b

/-- Body of the parsing loop of `getProcesses` for one line: tokenize with
`line.trim().split(/\s+/)`; a line with fewer than 11 tokens is dropped
(`none`); otherwise the tokens map positionally into a `ProcessInfo`, with
`vsz`/`rss` converted from kilobytes (`parseInt(tok) * 1024`) and formatted,
and the command rejoined from the tokens past the tenth and truncated to 80
characters. -/
def parseProcessLine (line : String) : Option ProcessInfo :=
  match jsSplitWs line with
  | u :: p :: c :: m :: v :: r :: t :: st :: sa :: ti :: c0 :: rest =>
    some
      { user := u
        pid := jsParseInt p
        cpu := jsParseFloat c
        mem := jsParseFloat m
        vsz := formatBytesNum ((jsParseInt v).map (fun k => k * 1024))
        rss := formatBytesNum ((jsParseInt r).map (fun k => k * 1024))
        tty := t
        stat := st
        start := sa
        time := ti
        command := jsSubstring (String.intercalate " " (c0 :: rest)) 80 }
  | _ => none

/-- The loop of `getProcesses` over the stdout lines: skip the header line
(`i = 1` onward), keep the parseable rows. -/
def getProcessesFromLines (lines : List String) : List ProcessInfo :=
  (lines.drop 1).filterMap parseProcessLine

/-- Parsing of the stdout string: `stdout.trim().split("\n")` then the
line loop. -/
def getProcessesFromStdout (stdout : String) : List ProcessInfo :=
  getProcessesFromLines (jsSplitLines (jsTrim stdout))

/-- The shell command run by `getProcesses`: both platforms pipe through
`head -50`, which keeps the first 50 output lines of `ps` with the header
line among them. -/
def psCommand (os : String) : String :=
  if os = "darwin" then "ps aux -r | head -50" else "ps aux --sort=-%cpu | head -50"

/-- End-to-end successful `getProcesses`: the raw `ps` output lines (header
first, rows in the order of the OS sort) truncated by `head -50`, then
parsed. -/
def listProcesses (rawPsLines : List String) : List ProcessInfo :=
  getProcessesFromLines (rawPsLines.take 50)

/-- The function `getProcesses()` including its `catch`: a failed command
(`none`) yields the empty list. -/
def getProcessesResult (cmdOut : Option (List String)) : List ProcessInfo :=
  match cmdOut with
  | some raw => listProcesses raw
  | none => []

/-! ## MemoryAccountant (`getMemoryInfo`) -/

/-- The record returned by `getMemoryInfo`. -/
structure MemInfo where
  total : ℤ
  free : ℤ
  used : ℤ
  percent : ℤ
deriving DecidableEq, Repr

/-- Accumulator of the `vm_stat` line loop. -/
structure VmPages where
  free : ℕ
  inactive : ℕ
  purgeable : ℕ
  speculative : ℕ
deriving DecidableEq, Repr

/-- One iteration of the `vm_stat` line loop: each `includes` test selects
the page class updated from the first number of the line (`0` when the line
has no digits, from `|| "0"`). -/
def vmStatStep (acc : VmPages) (line : String) : VmPages :=
  if jsIncludes line "Pages free:" then { acc with free := (firstNatIn line).getD 0 }
  else if jsIncludes line "Pages inactive:" then
    { acc with inactive := (firstNatIn line).getD 0 }
  else if jsIncludes line "Pages purgeable:" then
    { acc with purgeable := (firstNatIn line).getD 0 }
  else if jsIncludes line "Pages speculative:" then
    { acc with speculative := (firstNatIn line).getD 0 }
  else acc

/-- Search for the regular expression `/page size of (\d+) bytes/` starting
at each position of the line, returning the digit group of the first
match. -/
def findPageSize : List Char → Option ℕ
  | [] => none
  | c :: cs =>
    let here :=
      if ("page size of ".data).isPrefixOf (c :: cs) then
        let rest := (c :: cs).drop "page size of ".data.length
        let ds := rest.takeWhile Char.isDigit
        if ds.isEmpty then none
        else if (" bytes".data).isPrefixOf (rest.drop ds.length) then some (digitsVal ds)
        else none
      else none
    match here with
    | some n => some n
    | none => findPageSize cs

/-- The universal fallback of `getMemoryInfo`: `used = total - freemem()`. -/
def fallbackMemInfo (totalMemory freeMemory : ℤ) : MemInfo :=
  { total := totalMemory
    free := freeMemory
    used := totalMemory - freeMemory
    percent := jsRound (((totalMemory - freeMemory : ℤ) : ℚ) / (totalMemory : ℚ) * 100) }

/-- The macOS branch of `getMemoryInfo` on a successful `vm_stat` run: page
size parsed from the first line (default 16384), the four reclaimable page
classes summed and scaled, `used = total - available`. -/
def getMemoryInfoDarwin (totalMemory : ℤ) (stdout : String) : MemInfo :=
  let lines := jsSplitLines stdout
  let pageSize : ℕ := (findPageSize (lines.headD "").data).getD 16384
  let pages := lines.foldl vmStatStep ⟨0, 0, 0, 0⟩
  let availableMemory : ℤ :=
    ((pages.free + pages.inactive + pages.purgeable + pages.speculative) * pageSize : ℕ)
  let usedMemory := totalMemory - availableMemory
  { total := totalMemory
    free := availableMemory
    used := usedMemory
    percent := jsRound ((usedMemory : ℚ) / (totalMemory : ℚ) * 100) }

/-- The Linux branch of `getMemoryInfo` on a successful read of
`/proc/meminfo`: the first `MemAvailable:` line, kilobytes scaled to bytes;
a missing or zero value falls through to the fallback. -/
def getMemoryInfoLinux (totalMemory : ℤ) (stdout : String) (freeMemory : ℤ) : MemInfo :=
  let lines := jsSplitLines stdout
  let memAvailable : ℤ :=
    match lines.find? (fun l => jsStartsWith l "MemAvailable:") with
    | some l => (((firstNatIn l).getD 0 : ℕ) : ℤ) * 1024
    | none => 0
  if 0 < memAvailable then
    { total := totalMemory
      free := memAvailable
      used := totalMemory - memAvailable
      percent := jsRound (((totalMemory - memAvailable : ℤ) : ℚ) / (totalMemory : ℚ) * 100) }
  else fallbackMemInfo totalMemory freeMemory

/-- The function `getMemoryInfo()`: strategy selected on the platform
string; a failed external query (`none`) or an unmatched platform takes the
fallback. -/
def getMemoryInfo (os : String) (totalMemory : ℤ) (vmStatOut procMeminfoOut : Option String)
    (freeMemory : ℤ) : MemInfo :=
  if os = "darwin" then
    match vmStatOut with
    | some stdout => getMemoryInfoDarwin totalMemory stdout
    | none => fallbackMemInfo totalMemory freeMemory
  else if os = "linux" then
    match procMeminfoOut with
    | some stdout => getMemoryInfoLinux totalMemory stdout freeMemory
    | none => fallbackMemInfo totalMemory freeMemory
  else fallbackMemInfo totalMemory freeMemory

/-! ## MetricsAggregator (`getSystemMetrics`) -/

/-- The aggregate payload (interface `SystemMetrics`). -/
structure SystemMetrics where
  hostname : String
  platform : String
  arch : String
  uptime : ℚ
  loadAvg : List ℚ
  cpuCount : ℕ
  cpuModel : String
  cpuUsage : List CpuUsage
  totalMem : ℤ
  freeMem : ℤ
  usedMem : ℤ
  memPercent : ℤ
  processes : List ProcessInfo
  processCount : ℕ
  timestamp : ℤ

/-- The expression `cpuInfo[0]?.model || "Unknown"` (an empty model string
is falsy). -/
def cpuModelOf (cpuInfo : List CpuInfo) : String :=
  match cpuInfo.head? with
  | some c => if c.model = "" then "Unknown" else c.model
  | none => "Unknown"

/-- The function `getSystemMetrics()`: host facts and external results in,
one snapshot out, together with the updated `prevCpuTimes` cache. -/
def getSystemMetrics (host plat archStr : String) (uptimeVal : ℚ) (loadAvgVal : List ℚ)
    (cpuInfo : List CpuInfo) (cache : Cache) (totalMemory freeMemory : ℤ)
    (vmStatOut procMeminfoOut : Option String) (psOut : Option (List String))
    (timestamp : ℤ) : SystemMetrics × Cache :=
  let memInfo := getMemoryInfo plat totalMemory vmStatOut procMeminfoOut freeMemory
  let processes := getProcessesResult psOut
  let r := getCpuUsage cpuInfo cache
  ({ hostname := host
     platform := plat
     arch := archStr
     uptime := uptimeVal
     loadAvg := loadAvgVal
     cpuCount := cpuInfo.length
     cpuModel := cpuModelOf cpuInfo
     cpuUsage := r.1
     totalMem := memInfo.total
     freeMem := memInfo.free
     usedMem := memInfo.used
     memPercent := memInfo.percent
     processes := processes
     processCount := processes.length
     timestamp := timestamp }, r.2)

end Btop

namespace Btop

/-! ## Helper lemmas -/

/-- The executable rounding agrees with the mathematical `⌊· + 1/2⌋`. -/
theorem jsRound_eq_intFloor (q : ℚ) : jsRound q = ⌊q + 1/2⌋ := by
  rw [jsRound, Rat.floor_def', Rat.floor_def]

/-- Rounding a non-negative quantity is non-negative. -/
theorem jsRound_nonneg {q : ℚ} (h : 0 ≤ q) : 0 ≤ jsRound q := by
  rw [jsRound_eq_intFloor]
  exact Int.le_floor.mpr (by push_cast; linarith)

/-- Rounding a quantity at most 100 stays at most 100. -/
theorem jsRound_le_hundred {q : ℚ} (h : q ≤ 100) : jsRound q ≤ 100 := by
  rw [jsRound_eq_intFloor]
  have h1 : (⌊q + 1/2⌋ : ℤ) < 101 := Int.floor_lt.mpr (by push_cast; linarith)
  omega

/-- The integer-division form used in `formatBytes` is exactly the rounding
of tenths the source computes with `toFixed(1)`. -/
theorem roundTenths_eq (b : ℤ) (k : ℕ) (hk : 0 < k) :
    roundTenths b k = jsRound ((b : ℚ) / (k : ℚ) * 10) := by
  rw [jsRound_eq_intFloor]
  have hk0 : ((k : ℕ) : ℚ) ≠ 0 := by exact_mod_cast hk.ne'
  have harg : (b : ℚ) / (k : ℚ) * 10 + 1/2 = ((20 * b + (k : ℤ) : ℤ) : ℚ) / ((2 * k : ℕ) : ℚ) := by
    push_cast
    field_simp
    ring
  rw [harg, Rat.floor_intCast_div_natCast, roundTenths]
  push_cast
  ring_nf

/-- Element `i` of the emitted usage list is the per-core computation
against the cache as it stood before the walk reached index `start + i`
(entries written by the walk sit strictly below `start + i`). -/
theorem getCpuUsageAux_get? (l : List CpuInfo) (start : ℕ) (cache : Cache) (i : ℕ)
    (cpu : CpuInfo) (h : l[i]? = some cpu) :
    ((getCpuUsageAux l start cache).1)[i]?
      = some (computeCoreUsage (start + i) cpu.times (cache (start + i))) := by
  induction l generalizing start cache i with
  | nil => simp at h
  | cons c rest ih =>
    cases i with
    | zero =>
      simp only [List.getElem?_cons_zero, Option.some.injEq] at h
      subst h
      simp [getCpuUsageAux]
    | succ j =>
      simp only [List.getElem?_cons_succ] at h
      have hr := ih (start + 1) (fun k => if k = start then some c.times else cache k) j h
      have hne : start + 1 + j ≠ start := by omega
      have harith : start + (j + 1) = start + 1 + j := by omega
      simp only [getCpuUsageAux, List.getElem?_cons_succ, harith]
      rw [hr]
      simp [hne]

/-- The walk leaves cache entries outside the visited index window
unchanged. -/
theorem getCpuUsageAux_cache_frame (l : List CpuInfo) (start : ℕ) (cache : Cache) (j : ℕ)
    (h : j < start ∨ start + l.length ≤ j) :
    (getCpuUsageAux l start cache).2 j = cache j := by
  induction l generalizing start cache with
  | nil => rfl
  | cons c rest ih =>
    simp only [List.length_cons] at h
    simp only [getCpuUsageAux]
    rw [ih (start + 1) _ (by omega)]
    have hne : j ≠ start := by omega
    simp [hne]

/-- The walk overwrites the cache entry of every visited index with the
current reading of that core. -/
theorem getCpuUsageAux_cache_set (l : List CpuInfo) (start : ℕ) (cache : Cache) (i : ℕ)
    (cpu : CpuInfo) (h : l[i]? = some cpu) :
    (getCpuUsageAux l start cache).2 (start + i) = some cpu.times := by
  induction l generalizing start cache i with
  | nil => simp at h
  | cons c rest ih =>
    cases i with
    | zero =>
      simp only [List.getElem?_cons_zero, Option.some.injEq] at h
      subst h
      simp only [getCpuUsageAux, Nat.add_zero]
      rw [getCpuUsageAux_cache_frame rest (start + 1) _ start (Or.inl (by omega))]
      simp
    | succ j =>
      simp only [List.getElem?_cons_succ] at h
      simp only [getCpuUsageAux]
      have harith : start + (j + 1) = start + 1 + j := by omega
      rw [harith, ih (start + 1) _ j h]

/-- A `filterMap` by a function that succeeds on every element keeps the
length. -/
theorem length_filterMap_all {α β : Type} (f : α → Option β) (l : List α)
    (h : ∀ a ∈ l, (f a).isSome) : (l.filterMap f).length = l.length := by
  induction l with
  | nil => rfl
  | cons a rest ih =>
    have ha := h a (by simp)
    obtain ⟨b, hb⟩ := Option.isSome_iff_exists.mp ha
    rw [List.filterMap_cons, hb]
    simp only [List.length_cons]
    rw [ih (fun x hx => h x (by simp [hx]))]

/-- Any platform string other than the two handled ones takes the
fallback. -/
theorem getMemoryInfo_other (os : String) (total free : ℤ) (vs mi : Option String)
    (h1 : os ≠ "darwin") (h2 : os ≠ "linux") :
    getMemoryInfo os total vs mi free = fallbackMemInfo total free := by
  unfold getMemoryInfo
  rw [if_neg h1, if_neg h2]

/-- Failed external queries (both command results absent) always take the
fallback, on every platform. -/
theorem getMemoryInfo_none (os : String) (total free : ℤ) :
    getMemoryInfo os total none none free = fallbackMemInfo total free := by
  unfold getMemoryInfo
  split_ifs <;> rfl

end Btop

namespace Btop

/-! ## Claims -/

/-- C1 (amended): for every core that has a cached previous reading, when
`totalDiff = sum(current) - sum(previous) > 0`, `sample()` emits for that
core `usage = round((totalDiff - idleDiff)/totalDiff * 100)`,
`user = round(userDiff/totalDiff * 100)`, `system = round(sysDiff/totalDiff
* 100)` and `idle = round(idleDiff/totalDiff * 100)`.  (The worked example
of the claim is corrected by `cpu_delta_example_false`: the readings given
there have `totalDiff = 80`, not 130, hence `usage = 38`, not 62.) -/
theorem cpu_delta_branch_formula (l : List CpuInfo) (cache : Cache) (i : ℕ)
    (cpu : CpuInfo) (prev : CpuTimes) (hl : l[i]? = some cpu) (hc : cache i = some prev)
    (hd : 0 < (cpu.times.total : ℤ) - (prev.total : ℤ)) :
    ((getCpuUsage l cache).1)[i]? = some
      { core := i
        usage := jsRound ((((cpu.times.total : ℤ) - (prev.total : ℤ)
            - ((cpu.times.idle : ℤ) - (prev.idle : ℤ))) : ℚ)
          / (((cpu.times.total : ℤ) - (prev.total : ℤ)) : ℚ) * 100)
        user := jsRound ((((cpu.times.user : ℤ) - (prev.user : ℤ)) : ℚ)
          / (((cpu.times.total : ℤ) - (prev.total : ℤ)) : ℚ) * 100)
        system := jsRound ((((cpu.times.sys : ℤ) - (prev.sys : ℤ)) : ℚ)
          / (((cpu.times.total : ℤ) - (prev.total : ℤ)) : ℚ) * 100)
        idle := jsRound ((((cpu.times.idle : ℤ) - (prev.idle : ℤ)) : ℚ)
          / (((cpu.times.total : ℤ) - (prev.total : ℤ)) : ℚ) * 100) } := by
  have h := getCpuUsageAux_get? l 0 cache i cpu hl
  simp only [Nat.zero_add] at h
  simp only [getCpuUsage]
  rw [h]
  simp only [computeCoreUsage, hc]
  rw [if_pos hd]
  simp only [Option.some.injEq, CpuUsage.mk.injEq]
  refine ⟨trivial, ?_, ?_, ?_, ?_⟩ <;>
  · congr 1
    push_cast
    ring

/-- Witness for C1: the delta branch at the concrete reading pair of the
claim, `{user:100,nice:0,sys:50,idle:850,irq:0}` then
`{user:120,nice:0,sys:60,idle:900,irq:0}`. -/
theorem cpu_delta_branch_formula_witness :
    ((getCpuUsage [⟨"m", ⟨120, 0, 60, 900, 0⟩⟩] (fun _ => some ⟨100, 0, 50, 850, 0⟩)).1)[0]?
      = some { core := 0, usage := 38, user := 25, system := 13, idle := 63 } := by
  rw [cpu_delta_branch_formula _ _ 0 ⟨"m", ⟨120, 0, 60, 900, 0⟩⟩ ⟨100, 0, 50, 850, 0⟩
    (by decide) rfl (by decide)]
  norm_num [CpuTimes.total, jsRound, Rat.floor_def']

/-- Counterexample to C1 as stated: at the claim's own reading pair the
counter sums are 1000 and 1080, so `totalDiff = 80` (not 130) and the
emitted usage is `round(30/80*100) = 38`, not 62. -/
theorem cpu_delta_example_false :
    ((getCpuUsage [⟨"m", ⟨120, 0, 60, 900, 0⟩⟩] (fun _ => some ⟨100, 0, 50, 850, 0⟩)).1)[0]?
      = some { core := 0, usage := 38, user := 25, system := 13, idle := 63 }
    ∧ ((120 + 0 + 60 + 900 + 0 : ℤ) - (100 + 0 + 50 + 850 + 0 : ℤ)) = 80
    ∧ (38 : ℤ) ≠ 62 := by
  refine ⟨?_, by norm_num, by decide⟩
  have h := getCpuUsageAux_get? [⟨"m", ⟨120, 0, 60, 900, 0⟩⟩] 0
    (fun _ => some ⟨100, 0, 50, 850, 0⟩) 0 ⟨"m", ⟨120, 0, 60, 900, 0⟩⟩ (by decide)
  simp only [Nat.zero_add] at h
  simp only [getCpuUsage]
  rw [h]
  norm_num [computeCoreUsage, CpuTimes.total, jsRound, Rat.floor_def']

/-- C3: for every core with no cached previous reading, `sample()` emits
`usage = round((total - idle)/total * 100)` with `user`, `system`, `idle`
the single-sample ratios of the reading's own totals, and this usage lies
in `[0, 100]` (the reading has a positive counter sum, matching the nonzero
denominator of the source). -/
theorem cpu_bootstrap_branch (l : List CpuInfo) (cache : Cache) (i : ℕ)
    (cpu : CpuInfo) (hl : l[i]? = some cpu) (hc : cache i = none)
    (ht : 0 < cpu.times.total) :
    ((getCpuUsage l cache).1)[i]? = some
      { core := i
        usage := jsRound (((cpu.times.total : ℚ) - (cpu.times.idle : ℚ))
          / (cpu.times.total : ℚ) * 100)
        user := jsRound ((cpu.times.user : ℚ) / (cpu.times.total : ℚ) * 100)
        system := jsRound ((cpu.times.sys : ℚ) / (cpu.times.total : ℚ) * 100)
        idle := jsRound ((cpu.times.idle : ℚ) / (cpu.times.total : ℚ) * 100) }
    ∧ 0 ≤ jsRound (((cpu.times.total : ℚ) - (cpu.times.idle : ℚ))
        / (cpu.times.total : ℚ) * 100)
    ∧ jsRound (((cpu.times.total : ℚ) - (cpu.times.idle : ℚ))
        / (cpu.times.total : ℚ) * 100) ≤ 100 := by
  have hT : (0 : ℚ) < (cpu.times.total : ℚ) := by exact_mod_cast ht
  have hIn : cpu.times.idle ≤ cpu.times.total := by
    simp only [CpuTimes.total]; omega
  have hI : (cpu.times.idle : ℚ) ≤ (cpu.times.total : ℚ) := by exact_mod_cast hIn
  refine ⟨?_, ?_, ?_⟩
  · have h := getCpuUsageAux_get? l 0 cache i cpu hl
    simp only [Nat.zero_add] at h
    simp only [getCpuUsage]
    rw [h]
    simp only [computeCoreUsage, hc]
  · exact jsRound_nonneg
      (mul_nonneg (div_nonneg (by linarith) hT.le) (by norm_num))
  · apply jsRound_le_hundred
    have hdiv : ((cpu.times.total : ℚ) - (cpu.times.idle : ℚ)) / (cpu.times.total : ℚ) ≤ 1 := by
      rw [div_le_one hT]; linarith
    have := mul_le_mul_of_nonneg_right hdiv (by norm_num : (0 : ℚ) ≤ 100)
    simpa using this

/-- Witness for C3: first-ever sample of a core reading
`{user:100,nice:0,sys:50,idle:850,irq:0}` gives `usage = 15`. -/
theorem cpu_bootstrap_branch_witness :
    ((getCpuUsage [⟨"m", ⟨100, 0, 50, 850, 0⟩⟩] (fun _ => none)).1)[0]?
      = some { core := 0, usage := 15, user := 10, system := 5, idle := 85 } := by
  rw [(cpu_bootstrap_branch [⟨"m", ⟨100, 0, 50, 850, 0⟩⟩] (fun _ => none) 0
    ⟨"m", ⟨100, 0, 50, 850, 0⟩⟩ (by decide) rfl (by decide)).1]
  norm_num [CpuTimes.total, jsRound, Rat.floor_def']

/-- C4: for every core with a cached previous reading and
`totalDiff <= 0`, `sample()` emits exactly
`{usage: 0, user: 0, system: 0, idle: 100}`; two consecutive identical
readings have `totalDiff = 0` and so yield usage 0 (see the witness). -/
theorem cpu_nonpositive_delta (l : List CpuInfo) (cache : Cache) (i : ℕ)
    (cpu : CpuInfo) (prev : CpuTimes) (hl : l[i]? = some cpu) (hc : cache i = some prev)
    (hd : (cpu.times.total : ℤ) - (prev.total : ℤ) ≤ 0) :
    ((getCpuUsage l cache).1)[i]?
      = some { core := i, usage := 0, user := 0, system := 0, idle := 100 } := by
  have h := getCpuUsageAux_get? l 0 cache i cpu hl
  simp only [Nat.zero_add] at h
  simp only [getCpuUsage]
  rw [h]
  simp only [computeCoreUsage, hc]
  rw [if_neg (not_lt.mpr hd)]

/-- Witness for C4: two consecutive identical readings (cached previous
equal to the current counters) emit `{usage:0, user:0, system:0,
idle:100}`. -/
theorem cpu_nonpositive_delta_witness :
    ((getCpuUsage [⟨"m", ⟨100, 0, 50, 850, 0⟩⟩] (fun _ => some ⟨100, 0, 50, 850, 0⟩)).1)[0]?
      = some { core := 0, usage := 0, user := 0, system := 0, idle := 100 } :=
  cpu_nonpositive_delta _ _ 0 ⟨"m", ⟨100, 0, 50, 850, 0⟩⟩ ⟨100, 0, 50, 850, 0⟩
    (by decide) rfl (by decide)

/-- C9: each call to `sample()` overwrites the cache entry of every core
index present in the current reading with that core's current counters,
leaves every entry at an index not present unchanged, and never removes an
entry. -/
theorem cpu_cache_semantics (l : List CpuInfo) (cache : Cache) :
    (∀ i cpu, l[i]? = some cpu → (getCpuUsage l cache).2 i = some cpu.times)
    ∧ (∀ j, l.length ≤ j → (getCpuUsage l cache).2 j = cache j)
    ∧ (∀ j t, cache j = some t → ∃ u, (getCpuUsage l cache).2 j = some u) := by
  refine ⟨fun i cpu h => ?_, fun j hj => ?_, fun j t h => ?_⟩
  · simpa [getCpuUsage] using getCpuUsageAux_cache_set l 0 cache i cpu h
  · simpa [getCpuUsage] using getCpuUsageAux_cache_frame l 0 cache j (Or.inr (by omega))
  · by_cases hj : j < l.length
    · have hs : (l[j]?).isSome := by
        rw [List.getElem?_eq_getElem hj]; rfl
      obtain ⟨cpu, hcpu⟩ := Option.isSome_iff_exists.mp hs
      exact ⟨cpu.times, by simpa [getCpuUsage] using getCpuUsageAux_cache_set l 0 cache j cpu hcpu⟩
    · refine ⟨t, ?_⟩
      have hf := getCpuUsageAux_cache_frame l 0 cache j (Or.inr (by omega))
      simp only [getCpuUsage]
      rw [hf, h]

/-- Witness for C9: on a one-core reading the cache entry 0 is overwritten
with the current counters and an unrelated entry at index 3 survives. -/
theorem cpu_cache_semantics_witness :
    (getCpuUsage [⟨"m", ⟨1, 2, 3, 4, 5⟩⟩]
      (fun j => if j = 3 then some ⟨9, 9, 9, 9, 9⟩ else none)).2 0 = some ⟨1, 2, 3, 4, 5⟩
    ∧ (getCpuUsage [⟨"m", ⟨1, 2, 3, 4, 5⟩⟩]
      (fun j => if j = 3 then some ⟨9, 9, 9, 9, 9⟩ else none)).2 3 = some ⟨9, 9, 9, 9, 9⟩ := by
  constructor
  · exact (cpu_cache_semantics _ _).1 0 ⟨"m", ⟨1, 2, 3, 4, 5⟩⟩ (by decide)
  · rw [(cpu_cache_semantics [⟨"m", ⟨1, 2, 3, 4, 5⟩⟩] _).2.1 3 (by decide)]
    rfl

end Btop

namespace Btop

/-- C2 (amended): `list()` is bounded to 49 entries, because the
`head -50` in the command counts the header line among its 50 kept lines;
with at least 50 well-formed rows after the header it returns exactly the
first 49 of them (in the order produced by the OS sort). -/
theorem process_list_bound (raw : List String) :
    (listProcesses raw).length ≤ 49
    ∧ (51 ≤ raw.length →
        (∀ line ∈ (raw.take 50).drop 1, (parseProcessLine line).isSome) →
        (listProcesses raw).length = 49) := by
  constructor
  · unfold listProcesses getProcessesFromLines
    calc (((raw.take 50).drop 1).filterMap parseProcessLine).length
        ≤ ((raw.take 50).drop 1).length := List.length_filterMap_le _ _
      _ ≤ 49 := by
          simp only [List.length_drop, List.length_take]
          omega
  · intro hlen hwf
    unfold listProcesses getProcessesFromLines
    rw [length_filterMap_all _ _ hwf]
    simp only [List.length_drop, List.length_take]
    omega

/-- Witness for C2: a header plus 50 well-formed rows yields 49 parsed
entries. -/
theorem process_list_bound_witness :
    (listProcesses ("USER PID %CPU %MEM VSZ RSS TT STAT STARTED TIME COMMAND"
      :: List.replicate 50 "root 1 0.0 0.1 1024 512 ? Ss Jan01 0:00 init")).length = 49 :=
  (process_list_bound _).2 (by simp) (by decide)

/-- Counterexample to C2 as stated: a raw output with 50 well-formed rows
after the header yields 49 entries, not 50 (the header consumes one of the
50 lines `head -50` keeps). -/
theorem process_list_fifty_false :
    (List.replicate 50 "root 1 0.0 0.1 1024 512 ? Ss Jan01 0:00 init").all
      (fun line => (parseProcessLine line).isSome) = true
    ∧ (listProcesses ("USER PID %CPU %MEM VSZ RSS TT STAT STARTED TIME COMMAND"
        :: List.replicate 50 "root 1 0.0 0.1 1024 512 ? Ss Jan01 0:00 init")).length = 49
    ∧ (listProcesses ("USER PID %CPU %MEM VSZ RSS TT STAT STARTED TIME COMMAND"
        :: List.replicate 50 "root 1 0.0 0.1 1024 512 ? Ss Jan01 0:00 init")).length ≠ 50 :=
  ⟨by decide, by decide, by decide⟩

/-- C7: `list()` discards the first (header) line; a line with fewer than
11 whitespace tokens is dropped without failing; a line with at least 11
tokens maps positionally to a `ProcessInfo` whose `vsz`/`rss` are the
kilobyte tokens times 1024 formatted by `formatBytes`, and whose command is
the tokens past the tenth rejoined with single spaces and truncated to 80
characters; header-only output yields the empty sequence. -/
theorem process_row_parsing :
    (∀ hdr lines, getProcessesFromLines (hdr :: lines) = lines.filterMap parseProcessLine)
    ∧ (∀ line, (jsSplitWs line).length < 11 → parseProcessLine line = none)
    ∧ (∀ line u p c m v r t st sa ti c0 rest,
        jsSplitWs line = u :: p :: c :: m :: v :: r :: t :: st :: sa :: ti :: c0 :: rest →
        parseProcessLine line = some
          { user := u, pid := jsParseInt p, cpu := jsParseFloat c, mem := jsParseFloat m,
            vsz := formatBytesNum ((jsParseInt v).map (fun k => k * 1024)),
            rss := formatBytesNum ((jsParseInt r).map (fun k => k * 1024)),
            tty := t, stat := st, start := sa, time := ti,
            command := jsSubstring (String.intercalate " " (c0 :: rest)) 80 })
    ∧ (∀ hdr, getProcessesFromLines [hdr] = []) := by
  refine ⟨fun hdr lines => rfl, fun line hlen => ?_,
    fun line u p c m v r t st sa ti c0 rest hs => ?_, fun hdr => rfl⟩
  · unfold parseProcessLine
    split
    · rename_i u p c m v r t st sa ti c0 rest heq
      rw [heq] at hlen
      simp only [List.length_cons] at hlen
      omega
    · rfl
  · unfold parseProcessLine
    rw [hs]

/-- Witness for C7: a concrete 12-token row parses into the positional
record, with `vsz = 1024 KB` formatted as `"1M"`, `rss = 512 KB` as
`"512K"`, and the command rejoined and kept under 80 characters. -/
theorem process_row_parsing_witness :
    parseProcessLine "root 1 0.0 0.1 1024 512 ? Ss Jan01 0:00 /sbin/init --flag"
      = some { user := "root", pid := some 1, cpu := some (mkRat 0 10),
               mem := some (mkRat 1 10), vsz := "1M", rss := "512K", tty := "?",
               stat := "Ss", start := "Jan01", time := "0:00",
               command := "/sbin/init --flag" } := by
  rw [process_row_parsing.2.2.1 "root 1 0.0 0.1 1024 512 ? Ss Jan01 0:00 /sbin/init --flag"
    "root" "1" "0.0" "0.1" "1024" "512" "?" "Ss" "Jan01" "0:00" "/sbin/init" ["--flag"]
    (by decide)]
  decide

/-- C5: every `MemoryInfo` returned by `measure()` satisfies
`used + free == total`, under each of the three strategies
(page-classification, kernel-reported availability, and the
total-minus-raw-free fallback). -/
theorem mem_used_plus_free (os : String) (total free : ℤ) (vs mi : Option String) :
    (getMemoryInfo os total vs mi free).used + (getMemoryInfo os total vs mi free).free
      = (getMemoryInfo os total vs mi free).total := by
  have hfb : ∀ t f : ℤ,
      (fallbackMemInfo t f).used + (fallbackMemInfo t f).free = (fallbackMemInfo t f).total := by
    intro t f
    dsimp only [fallbackMemInfo]
    ring
  unfold getMemoryInfo
  split_ifs with h1 h2
  · cases vs with
    | none => exact hfb total free
    | some s =>
      dsimp only [getMemoryInfoDarwin]
      ring
  · cases mi with
    | none => exact hfb total free
    | some s =>
      dsimp only [getMemoryInfoLinux]
      split_ifs with h3
      · dsimp only
        ring
      · exact hfb total free
  · exact hfb total free

/-- C6: every `MemoryInfo` returned by `measure()` satisfies
`percent == round(used/total * 100)`, regardless of which accounting
strategy produced `used` and `total` (the host's reported total memory is
positive, matching the denominator of the source). -/
theorem mem_percent_formula (os : String) (total free : ℤ) (vs mi : Option String)
    (_ht : 0 < total) :
    (getMemoryInfo os total vs mi free).percent
      = jsRound (((getMemoryInfo os total vs mi free).used : ℚ)
        / ((getMemoryInfo os total vs mi free).total : ℚ) * 100) := by
  unfold getMemoryInfo
  split_ifs with h1 h2
  · cases vs with
    | none => rfl
    | some s => rfl
  · cases mi with
    | none => rfl
    | some s =>
      dsimp only [getMemoryInfoLinux]
      split_ifs with h3 <;> rfl
  · rfl

/-- Witness for C6: total 16 and used 8 on the fallback path give
`percent = 50`. -/
theorem mem_percent_formula_witness :
    (getMemoryInfo "plan9" 16 none none 8).percent = 50 := by
  have h := mem_percent_formula "plan9" 16 8 none none (by norm_num)
  rw [getMemoryInfo_none] at h ⊢
  rw [h]
  norm_num [fallbackMemInfo, jsRound, Rat.floor_def']

/-- C8: failures of the external queries never propagate: a failed process
listing yields the empty sequence (and the snapshot is still produced with
`processes = []`); a failed or unmatched memory query yields the fallback
`used = total - freemem()` rather than an error. -/
theorem external_failure_handling :
    (getProcessesResult none = [])
    ∧ (∀ os total free, getMemoryInfo os total none none free = fallbackMemInfo total free)
    ∧ (∀ os total free vs mi, os ≠ "darwin" → os ≠ "linux" →
        getMemoryInfo os total vs mi free = fallbackMemInfo total free)
    ∧ (∀ total free, (fallbackMemInfo total free).used = total - free)
    ∧ (∀ host plat archStr up la ci cache tm fm vs mi ts,
        ((getSystemMetrics host plat archStr up la ci cache tm fm vs mi none ts).1).processes
          = []) :=
  ⟨rfl, getMemoryInfo_none,
    fun os total free vs mi h1 h2 => getMemoryInfo_other os total free vs mi h1 h2,
    fun _ _ => rfl, fun _ _ _ _ _ _ _ _ _ _ _ _ => rfl⟩

/-- Witness for C8: an unmatched platform with both external outputs
present still takes the fallback. -/
theorem external_failure_handling_witness :
    getMemoryInfo "plan9" 16 (some "whatever") (some "other") 8 = fallbackMemInfo 16 8 :=
  external_failure_handling.2.2.1 "plan9" 16 8 (some "whatever") (some "other")
    (by decide) (by decide)

/-- C10: every `SystemMetrics` aggregate satisfies
`processCount == length(processes)`, including the degraded case of a
failed listing, where `processes` is empty and `processCount` is 0. -/
theorem snapshot_process_count (host plat archStr : String) (up : ℚ) (la : List ℚ)
    (ci : List CpuInfo) (cache : Cache) (tm fm : ℤ) (vs mi : Option String)
    (ps : Option (List String)) (ts : ℤ) :
    ((getSystemMetrics host plat archStr up la ci cache tm fm vs mi ps ts).1).processCount
      = ((getSystemMetrics host plat archStr up la ci cache tm fm vs mi ps ts).1).processes.length
    ∧ ((getSystemMetrics host plat archStr up la ci cache tm fm vs mi none ts).1).processes = []
    ∧ ((getSystemMetrics host plat archStr up la ci cache tm fm vs mi none ts).1).processCount
      = 0 :=
  ⟨rfl, rfl, rfl⟩

end Btop
